import Mathlib

/-!
Verification of the `may_minihttp` HTTP server core (`src/http_server.rs`).

The two connection-handling loops (`HttpServer::start`, sequential, and
`HttpPipelineServer::start`, pipelined) are embedded as trace-producing
functions over scripted I/O outcomes: a connection supplies a list of read
results and a list of write results, and the loop produces the list of
observable events (decode attempts, reads, writes, error-level log entries,
ticket acquisitions, task spawns, closes) it performs.  The external
collaborators (`request::decode`, `response::encode`, the user handler) are
parameters, exactly as they are opaque calls in the source.  The
`sequencer::Seq` ordering primitive and the `Response` value type come from
crates/modules whose code is not in `src/`; they are modelled from the
specification where noted.
-/

set_option autoImplicit false

namespace MayMinihttp

/-- The subset of `std::io::ErrorKind` the server inspects (`t!` macro tests
`ConnectionReset` and `UnexpectedEof`); every other kind is `other`. -/
inductive ErrorKind where
  | connectionReset
  | unexpectedEof
  | other (tag : String)
  deriving DecidableEq

/-- An `std::io::Error`: a kind plus a textual description (`Error::description`). -/
structure IOErr where
  kind : ErrorKind
  descr : String
  deriving DecidableEq

/-- The kind test of the `t!` macro (src/http_server.rs lines 25–26):
`ConnectionReset` and `UnexpectedEof` are treated as benign disconnects. -/
def benignKind : ErrorKind → Bool
  | .connectionReset => true
  | .unexpectedEof => true
  | .other _ => false

/-- Observable events of a connection loop and of its spawned handler tasks. -/
inductive Event where
  | decodeAttempt (buflen : Nat)
  | decodedReq
  | readAttempt (rem : Nat)
  | gotBytes (n : Nat)
  | eofClose
  | ticketAcquired (k : Nat)
  | spawned (k : Nat)
  | wrote (bytes : List Nat)
  | logError (msg : String)
  deriving DecidableEq

/-- The error-level log message of the `t!` and `t_c!` macros: it names the
failing call and the error. -/
def tMsg (call : String) (e : IOErr) : String :=
  "call = " ++ call ++ "; err = " ++ e.descr

/-- The error arm of the `t!` macro (src/http_server.rs lines 22–35): on a
`ConnectionReset` or `UnexpectedEof` error the coroutine returns silently; on
any other error it logs at error level (the message names the failing call)
and returns.  The returned list is what the failing call contributes to the
trace; the loop emits it and stops. -/
def tFail (call : String) (e : IOErr) : List Event :=
  if benignKind e.kind then [] else [.logError (tMsg call e)]

/-- Modelled from the spec: the `Response` value type lives in `response.rs`,
which is not under `src/`.  Per the spec (§3, §7 and claim sources) it carries
a status code, a status message and a body, with setter methods
`status_code` and `body` as used by `internal_error_rsp`. -/
structure Response where
  statusCode : Nat := 200
  statusMsg : String := "Ok"
  bodyStr : String := ""
  deriving DecidableEq

/-- Modelled from the spec: `Response::new()` builds a default response. -/
def Response.new : Response := {}

/-- Modelled from the spec: `Response::status_code` sets code and message. -/
def Response.status_code (r : Response) (c : Nat) (m : String) : Response :=
  { r with statusCode := c, statusMsg := m }

/-- Modelled from the spec: `Response::body` sets the body string. -/
def Response.body (r : Response) (s : String) : Response :=
  { r with bodyStr := s }

/-- The response value built by `internal_error_rsp` (src/http_server.rs
lines 49–52): status 500 "Internal Server Error", body the error's
description. -/
def internalErrorResponse (e : IOErr) : Response :=
  (Response.new.status_code 500 "Internal Server Error").body e.descr

/-- Model of `internal_error_rsp` (src/http_server.rs lines 47–53): logs the service
error at error level and returns the 500 response.  The first component is
its contribution to the trace. -/
def internal_error_rsp (e : IOErr) : List Event × Response :=
  ([.logError ("error in service: err = " ++ e.descr)], internalErrorResponse e)

/-- Model of `ret = server.0.call(req).unwrap_or_else(internal_error_rsp)`
(src/http_server.rs lines 93 and 152–153): a handler success passes through,
a handler failure is converted by `internal_error_rsp`. -/
def callService {Req : Type} (service : Req → Except IOErr Response) (req : Req) :
    List Event × Response :=
  match service req with
  | .ok r => ([], r)
  | .error e => internal_error_rsp e

/-- Modelled from the spec: the byte accumulator (§4.1) is a `BytesMut` from
the external `bytes` crate, reduced to its contents and its capacity. -/
structure BufM where
  data : List Nat
  cap : Nat
  deriving DecidableEq

/-- Model of `BytesMut::with_capacity(n)`: empty contents, capacity `n`. -/
def BufM.with_capacity (n : Nat) : BufM := { data := [], cap := n }

/-- Model of `BytesMut::remaining_mut()`: writable capacity left in the buffer. -/
def BufM.remaining_mut (b : BufM) : Nat := b.cap - b.data.length

/-- Model of `BytesMut::reserve(n)`: guarantees writable capacity for at least `n`
more bytes, growing only when needed (modelled with the minimal documented
guarantee). -/
def BufM.reserve (b : BufM) (n : Nat) : BufM :=
  if b.remaining_mut < n then { b with cap := b.data.length + n } else b

/-- Size of a successful `stream.read(read_buf)` when the peer offers
`chunk`: at most the writable slice `buf.bytes_mut()` can hold. -/
def readSize (b : BufM) (chunk : List Nat) : Nat :=
  min chunk.length b.remaining_mut

/-- Model of `buf.advance_mut(n)` after the read wrote the first `n` bytes of `chunk`
into the spare capacity. -/
def BufM.advance_mut (b : BufM) (chunk : List Nat) (n : Nat) : BufM :=
  { b with data := b.data ++ chunk.take n }

/-- State of one sequential connection: the accumulator plus the scripted
outcomes of future reads (`.ok chunk` with `chunk = []` is a zero-byte read)
and future writes (`none` = success, `some e` = I/O error). -/
structure ConnSt where
  buf : BufM
  reads : List (Except IOErr (List Nat))
  writes : List (Option IOErr)

/-- The per-connection loop of `HttpServer::start` (src/http_server.rs lines
72–102), embedded with fuel: decode; on "need more data" grow the buffer when
writable capacity is under 256 (by reserving 512) and read, a zero-byte read
closes; on a decoded request call the service (handler failure converted to
the 500 response), encode, write it back and loop.  Errors go through `t!`.
An exhausted script means the loop blocks forever; the trace is what happened
up to that point. -/
def seqLoop {Req : Type} (decode : List Nat → Except IOErr (Option (Req × List Nat)))
    (service : Req → Except IOErr Response)
    (encode : Response → List Nat) :
    Nat → ConnSt → List Event
  | 0, _ => []
  | fuel + 1, st =>
    .decodeAttempt st.buf.data.length ::
      (match decode st.buf.data with
       | .error e => tFail "request::decode(&mut buf)" e
       | .ok none =>
         let b1 := if st.buf.remaining_mut < 256 then st.buf.reserve 512 else st.buf
         match st.reads with
         | [] => []
         | r :: rs =>
           .readAttempt b1.remaining_mut ::
             (match r with
              | .error e => tFail "stream.read(read_buf)" e
              | .ok chunk =>
                let n := readSize b1 chunk
                .gotBytes n ::
                  (if n = 0 then [.eofClose]
                   else
                     seqLoop decode service encode fuel
                       { st with buf := b1.advance_mut chunk n, reads := rs }))
       | .ok (some (req, rest)) =>
         .decodedReq ::
           (let p := callService service req
            p.1 ++
              match st.writes with
              | [] => []
              | w :: ws =>
                match w with
                | some e => tFail "stream.write_all(rsp.as_ref())" e
                | none =>
                  .wrote (encode p.2) ::
                    seqLoop decode service encode fuel
                      { st with buf := { data := rest, cap := st.buf.cap }, writes := ws }))

/-- State of one pipelined connection's main decode loop: the accumulator,
the scripted reads, and the sequencer's ticket counter (modelled from the
spec: `Seq::next` hands out strictly increasing tickets, §3 and §4.4). -/
structure PipeSt where
  buf : BufM
  reads : List (Except IOErr (List Nat))
  ticket : Nat

/-- The main decode loop of `HttpPipelineServer::start` (src/http_server.rs
lines 128–163), embedded with fuel: decode; on "need more data" grow the
buffer when writable capacity is under 1024 (by reserving 4096) and read, a
zero-byte read closes; on a decoded request synchronously take the next
ticket (`writer.next()`) and spawn the handler task, then resume decoding
immediately.  Errors go through `t!`. -/
def pipeLoop {Req : Type} (decode : List Nat → Except IOErr (Option (Req × List Nat))) :
    Nat → PipeSt → List Event
  | 0, _ => []
  | fuel + 1, st =>
    .decodeAttempt st.buf.data.length ::
      (match decode st.buf.data with
       | .error e => tFail "request::decode(&mut buf)" e
       | .ok none =>
         let b1 := if st.buf.remaining_mut < 1024 then st.buf.reserve 4096 else st.buf
         match st.reads with
         | [] => []
         | r :: rs =>
           .readAttempt b1.remaining_mut ::
             (match r with
              | .error e => tFail "reader.read(read_buf)" e
              | .ok chunk =>
                let n := readSize b1 chunk
                .gotBytes n ::
                  (if n = 0 then [.eofClose]
                   else
                     pipeLoop decode fuel
                       { st with buf := b1.advance_mut chunk n, reads := rs }))
       | .ok (some (_req, rest)) =>
         .decodedReq :: .ticketAcquired st.ticket :: .spawned st.ticket ::
           pipeLoop decode fuel
             { st with buf := { data := rest, cap := st.buf.cap },
                       ticket := st.ticket + 1 })

/-- The spawned handler task of the pipelined loop (src/http_server.rs lines
151–159): run the handler (failure converted by `internal_error_rsp`), encode
into a private buffer, then (once the sequencer admits the ticket) write the
whole buffer; the write outcome is scripted.  A write error goes through
`t!`. -/
def pipeTask {Req : Type} (service : Req → Except IOErr Response)
    (encode : Response → List Nat) (req : Req) (writeRes : Option IOErr) : List Event :=
  let p := callService service req
  p.1 ++
    match writeRes with
    | some e => tFail "writer.write_all(rsp.as_ref())" e
    | none => [.wrote (encode p.2)]

/-- Initial state of a sequential connection loop:
`BytesMut::with_capacity(512)` (src/http_server.rs line 73). -/
def initConnSt (reads : List (Except IOErr (List Nat)))
    (writes : List (Option IOErr)) : ConnSt :=
  { buf := BufM.with_capacity 512, reads := reads, writes := writes }

/-- Initial state of a pipelined decode loop:
`BytesMut::with_capacity(4096)` (src/http_server.rs line 129) and a fresh
sequencer counter starting at 0. -/
def initPipeSt (reads : List (Except IOErr (List Nat))) : PipeSt :=
  { buf := BufM.with_capacity 4096, reads := reads, ticket := 0 }

/-- Observable events of the accept loop spawned by `start`. -/
inductive AcceptEvent where
  | logError (msg : String)
  | seqCreated (id : Nat)
  | spawnedConn (id : Nat)
  deriving DecidableEq

/-- Accept loop body of `HttpServer::start` (src/http_server.rs lines 69–103):
each incoming result goes through `t_c!` (a failed accept is logged at error
level and skipped with `continue`); a successful accept spawns a connection
loop. -/
def seqAccept (conns : List (Except IOErr Nat)) : List AcceptEvent :=
  (conns.map fun c =>
    match c with
    | .error e => [.logError (tMsg "stream" e)]
    | .ok id => [.spawnedConn id]).flatten

/-- An accepted pipelined connection: an identifier plus the scripted outcome
of `stream.try_clone()`. -/
structure PConn where
  id : Nat
  cloneRes : Except IOErr Unit

/-- Accept loop body of `HttpPipelineServer::start` (src/http_server.rs lines
123–164): `t_c!` on the accept, then `t_c!` on `stream.try_clone()` (a failed
clone is logged and the connection skipped with `continue`); only when both
succeed is the sequencer created (`Seq::new(stream)`) and the connection loop
spawned. -/
def pipeAccept (conns : List (Except IOErr PConn)) : List AcceptEvent :=
  (conns.map fun c =>
    match c with
    | .error e => [.logError (tMsg "stream" e)]
    | .ok c =>
      match c.cloneRes with
      | .error e => [.logError (tMsg "stream.try_clone()" e)]
      | .ok _ => [.seqCreated c.id, .spawnedConn c.id]).flatten

/-- The coroutine handle returned by `start`: it carries the trace of the
spawned accept-loop coroutine; the caller can cancel the coroutine through
it (`may::coroutine::JoinHandle`). -/
structure JoinHandle where
  events : List AcceptEvent
  deriving DecidableEq

/-- Model of `HttpServer::start` (src/http_server.rs lines 63–106):
`TcpListener::bind(addr)?` first — a bind error is returned immediately by
`?` — and only on success is the accept-loop coroutine spawned (`go!`).  The
`Bool` component records whether the coroutine was spawned. -/
def serverStart (bindRes : Except IOErr (List (Except IOErr Nat))) :
    Except IOErr JoinHandle × Bool :=
  match bindRes with
  | .error e => (.error e, false)
  | .ok conns => (.ok ⟨seqAccept conns⟩, true)

/-- Model of `HttpPipelineServer::start` (src/http_server.rs lines 117–167): same
bind-then-spawn structure as `serverStart`, with the pipelined accept loop. -/
def pipeServerStart (bindRes : Except IOErr (List (Except IOErr PConn))) :
    Except IOErr JoinHandle × Bool :=
  match bindRes with
  | .error e => (.error e, false)
  | .ok conns => (.ok ⟨pipeAccept conns⟩, true)

/-! ### The sequencer-gated write machine

Modelled from the spec: the `sequencer` crate is not under `src/`.  Per spec
§3, §4.3 (steps 4–5) and §4.4: ticket `k`'s task may acquire the shared write
half only after tickets `0..k-1` have completed and released; while holding
it the task writes its own encoded response (one byte per step, so that
partial interleaving would be expressible); `write_all` writes the full
buffer before the guard is released.  The adversary chooses the step order;
a step whose guard fails is a blocked task and changes nothing. -/

/-- State of the write side of one pipelined connection: the bytes on the
wire so far, the sequencer's "next ticket allowed to write", the current
holder of the write half, and each task's write progress. -/
structure SeqWState where
  wire : List Nat
  nextW : Nat
  holder : Option Nat
  prog : Nat → Nat

/-- A scheduler step: task `k` tries to acquire the write half, to write its
next byte, or to release the write half. -/
inductive SeqWStep where
  | acquire (k : Nat)
  | writeByte (k : Nat)
  | release (k : Nat)

/-- Modelled from the spec: one step of the sequencer-gated write machine.
`enc k` is the encoded response of the request that got ticket `k` (tickets
are issued in decode order, so index order is decode order). -/
def seqWStepFn (enc : Nat → List Nat) (s : SeqWState) : SeqWStep → SeqWState
  | .acquire k =>
    if s.holder = none ∧ k = s.nextW then { s with holder := some k } else s
  | .writeByte k =>
    if s.holder = some k ∧ s.prog k < (enc k).length then
      { s with wire := s.wire ++ [(enc k).getD (s.prog k) 0],
               prog := fun j => if j = k then s.prog k + 1 else s.prog j }
    else s
  | .release k =>
    if s.holder = some k ∧ s.prog k = (enc k).length then
      { s with holder := none, nextW := s.nextW + 1 }
    else s

/-- Run the write machine over an adversarially chosen step list. -/
def seqWRun (enc : Nat → List Nat) (steps : List SeqWStep) (s : SeqWState) : SeqWState :=
  steps.foldl (seqWStepFn enc) s

/-- Initial write-side state of a fresh pipelined connection. -/
def seqWInit : SeqWState :=
  { wire := [], nextW := 0, holder := none, prog := fun _ => 0 }

/-- Concatenation of the encoded responses of tickets `0..n-1` in ticket
(= decode) order. -/
def joinEnc (enc : Nat → List Nat) (n : Nat) : List Nat :=
  ((List.range n).map enc).flatten

/-- Invariant of the write machine: with the write half free, the wire is
exactly the responses of all released tickets in order and no unreleased
task has written; with ticket `k` holding it, `k` is the next ticket and the
wire is the released responses followed by a prefix of `enc k`. -/
def SeqWInv (enc : Nat → List Nat) (s : SeqWState) : Prop :=
  (s.holder = none → s.wire = joinEnc enc s.nextW ∧ ∀ j, s.nextW ≤ j → s.prog j = 0) ∧
  (∀ k, s.holder = some k →
    k = s.nextW ∧ s.prog k ≤ (enc k).length ∧
    s.wire = joinEnc enc s.nextW ++ (enc k).take (s.prog k) ∧
    ∀ j, s.nextW < j → s.prog j = 0)

/-! ### Trace scanners

Boolean checkers over event traces, used to state loop invariants in a form
a witness can evaluate on concrete runs. -/

/-- Scanner for the ticket discipline of the pipelined decode loop, with the
expected next ticket as state: every decoded request is immediately followed
by acquiring exactly the next ticket and then by the spawn carrying that
ticket, and ticket/spawn events occur nowhere else. -/
def c3scan : List Event → Nat → Bool
  | [], _ => true
  | .decodedReq :: .ticketAcquired k :: .spawned k2 :: rest, t =>
    k == t && k2 == t && c3scan rest (t + 1)
  | .decodedReq :: _, _ => false
  | .ticketAcquired _ :: _, _ => false
  | .spawned _ :: _, _ => false
  | _ :: rest, t => c3scan rest t

/-- Scanner for graceful EOF, with state 0–3 tracking how much of the
terminal pattern `[decodeAttempt, readAttempt, gotBytes 0]` immediately
precedes the current position: an `eofClose` may occur only right after that
pattern and must be the last event of the trace. -/
def c5scan : List Event → Nat → Bool
  | [], _ => true
  | .decodeAttempt _ :: rest, _ => c5scan rest 1
  | .readAttempt _ :: rest, s => c5scan rest (if s == 1 then 2 else 0)
  | .gotBytes n :: rest, s => c5scan rest (if s == 2 && n == 0 then 3 else 0)
  | .eofClose :: rest, s => s == 3 && rest.isEmpty
  | _ :: rest, _ => c5scan rest 0

/-- Scanner for the read-capacity bound: every read is attempted with
writable capacity at least `t`. -/
def c6scan (t : Nat) : List Event → Bool
  | [] => true
  | .readAttempt r :: rest => decide (t ≤ r) && c6scan t rest
  | _ :: rest => c6scan t rest

/-- Scanner for the decode/read alternation, with state `armed` (a decode
attempt has happened since the last read) and `expectDecode` (a nonzero read
just happened, so the next event must be a decode attempt): a read is only
attempted when armed, and after every nonzero read the next event, if any,
is a decode attempt. -/
def c8scan : List Event → Bool → Bool → Bool
  | [], _, _ => true
  | .decodeAttempt _ :: rest, _, _ => c8scan rest true false
  | .readAttempt _ :: rest, armed, expectDecode =>
    !expectDecode && armed && c8scan rest false false
  | .gotBytes n :: rest, armed, _ => c8scan rest armed (n != 0)
  | _ :: rest, armed, expectDecode => !expectDecode && c8scan rest armed false

/-! ### Concrete instances used by witness and counterexample theorems -/

/-- A benign write/read error: the peer reset the connection. -/
def resetErr : IOErr := ⟨.connectionReset, "connection reset by peer"⟩

/-- A non-benign I/O error. -/
def diskErr : IOErr := ⟨.other "disk", "disk full"⟩

/-- A handler failure value. -/
def handlerErr : IOErr := ⟨.other "handler", "handler failed"⟩

/-- A toy decoder for witnesses: a frame is one byte. -/
def decodeW : List Nat → Except IOErr (Option (Nat × List Nat))
  | [] => .ok none
  | b :: rest => .ok (some (b, rest))

/-- A toy handler that always succeeds. -/
def serviceOkW : Nat → Except IOErr Response := fun _ => .ok Response.new

/-- A toy handler that always fails. -/
def serviceErrW : Nat → Except IOErr Response := fun _ => .error handlerErr

/-- A toy encoder: the status code as a single pseudo-byte. -/
def encodeW : Response → List Nat := fun r => [r.statusCode]

/-- Encoded responses for the write-machine witness: ticket `k`'s response
is the two bytes `[k, k + 1]`. -/
def encW : Nat → List Nat := fun k => [k, k + 1]

/-- An adversarial schedule for the write-machine witness: task 1 repeatedly
tries to acquire and write before its turn (those steps block), task 0 writes
and releases, then task 1 proceeds. -/
def stepsW : List SeqWStep :=
  [.acquire 1, .acquire 0, .writeByte 1, .writeByte 0, .writeByte 0, .release 0,
   .acquire 1, .writeByte 1, .writeByte 1, .release 1]

/-! ## Helper lemmas -/

theorem c3scan_decodeAttempt (l : Nat) (rest : List Event) (t : Nat) :
    c3scan (.decodeAttempt l :: rest) t = c3scan rest t := rfl

theorem c3scan_readAttempt (r : Nat) (rest : List Event) (t : Nat) :
    c3scan (.readAttempt r :: rest) t = c3scan rest t := rfl

theorem c3scan_gotBytes (n : Nat) (rest : List Event) (t : Nat) :
    c3scan (.gotBytes n :: rest) t = c3scan rest t := rfl

theorem c3scan_eofClose (rest : List Event) (t : Nat) :
    c3scan (.eofClose :: rest) t = c3scan rest t := rfl

theorem c3scan_logError (m : String) (rest : List Event) (t : Nat) :
    c3scan (.logError m :: rest) t = c3scan rest t := rfl

theorem c3scan_triple (k k2 : Nat) (rest : List Event) (t : Nat) :
    c3scan (.decodedReq :: .ticketAcquired k :: .spawned k2 :: rest) t =
      (k == t && k2 == t && c3scan rest (t + 1)) := rfl

theorem c3scan_tFail (c : String) (e : IOErr) (t : Nat) :
    c3scan (tFail c e) t = true := by
  unfold tFail; split <;> rfl

theorem c5scan_decodeAttempt (l : Nat) (rest : List Event) (s : Nat) :
    c5scan (.decodeAttempt l :: rest) s = c5scan rest 1 := rfl

theorem c5scan_readAttempt (r : Nat) (rest : List Event) (s : Nat) :
    c5scan (.readAttempt r :: rest) s = c5scan rest (if s == 1 then 2 else 0) := rfl

theorem c5scan_gotBytes (n : Nat) (rest : List Event) (s : Nat) :
    c5scan (.gotBytes n :: rest) s =
      c5scan rest (if s == 2 && n == 0 then 3 else 0) := rfl

theorem c5scan_eofClose (rest : List Event) (s : Nat) :
    c5scan (.eofClose :: rest) s = (s == 3 && rest.isEmpty) := rfl

theorem c5scan_decodedReq (rest : List Event) (s : Nat) :
    c5scan (.decodedReq :: rest) s = c5scan rest 0 := rfl

theorem c5scan_ticketAcquired (k : Nat) (rest : List Event) (s : Nat) :
    c5scan (.ticketAcquired k :: rest) s = c5scan rest 0 := rfl

theorem c5scan_spawned (k : Nat) (rest : List Event) (s : Nat) :
    c5scan (.spawned k :: rest) s = c5scan rest 0 := rfl

theorem c5scan_wrote (bs : List Nat) (rest : List Event) (s : Nat) :
    c5scan (.wrote bs :: rest) s = c5scan rest 0 := rfl

theorem c5scan_logError (m : String) (rest : List Event) (s : Nat) :
    c5scan (.logError m :: rest) s = c5scan rest 0 := rfl

theorem c5scan_tFail (c : String) (e : IOErr) (s : Nat) :
    c5scan (tFail c e) s = true := by
  unfold tFail; split <;> rfl

theorem c6scan_readAttempt (t r : Nat) (rest : List Event) :
    c6scan t (.readAttempt r :: rest) = (decide (t ≤ r) && c6scan t rest) := rfl

theorem c6scan_decodeAttempt (t l : Nat) (rest : List Event) :
    c6scan t (.decodeAttempt l :: rest) = c6scan t rest := rfl

theorem c6scan_gotBytes (t n : Nat) (rest : List Event) :
    c6scan t (.gotBytes n :: rest) = c6scan t rest := rfl

theorem c6scan_decodedReq (t : Nat) (rest : List Event) :
    c6scan t (.decodedReq :: rest) = c6scan t rest := rfl

theorem c6scan_eofClose (t : Nat) (rest : List Event) :
    c6scan t (.eofClose :: rest) = c6scan t rest := rfl

theorem c6scan_ticketAcquired (t k : Nat) (rest : List Event) :
    c6scan t (.ticketAcquired k :: rest) = c6scan t rest := rfl

theorem c6scan_spawned (t k : Nat) (rest : List Event) :
    c6scan t (.spawned k :: rest) = c6scan t rest := rfl

theorem c6scan_wrote (t : Nat) (bs : List Nat) (rest : List Event) :
    c6scan t (.wrote bs :: rest) = c6scan t rest := rfl

theorem c6scan_logError (t : Nat) (m : String) (rest : List Event) :
    c6scan t (.logError m :: rest) = c6scan t rest := rfl

theorem c6scan_tFail (t : Nat) (c : String) (e : IOErr) :
    c6scan t (tFail c e) = true := by
  unfold tFail; split <;> rfl

theorem c8scan_decodeAttempt (l : Nat) (rest : List Event) (a ex : Bool) :
    c8scan (.decodeAttempt l :: rest) a ex = c8scan rest true false := rfl

theorem c8scan_readAttempt (r : Nat) (rest : List Event) (a ex : Bool) :
    c8scan (.readAttempt r :: rest) a ex = (!ex && a && c8scan rest false false) := rfl

theorem c8scan_gotBytes (n : Nat) (rest : List Event) (a ex : Bool) :
    c8scan (.gotBytes n :: rest) a ex = c8scan rest a (n != 0) := rfl

theorem c8scan_decodedReq (rest : List Event) (a ex : Bool) :
    c8scan (.decodedReq :: rest) a ex = (!ex && c8scan rest a false) := rfl

theorem c8scan_eofClose (rest : List Event) (a ex : Bool) :
    c8scan (.eofClose :: rest) a ex = (!ex && c8scan rest a false) := rfl

theorem c8scan_ticketAcquired (k : Nat) (rest : List Event) (a ex : Bool) :
    c8scan (.ticketAcquired k :: rest) a ex = (!ex && c8scan rest a false) := rfl

theorem c8scan_spawned (k : Nat) (rest : List Event) (a ex : Bool) :
    c8scan (.spawned k :: rest) a ex = (!ex && c8scan rest a false) := rfl

theorem c8scan_wrote (bs : List Nat) (rest : List Event) (a ex : Bool) :
    c8scan (.wrote bs :: rest) a ex = (!ex && c8scan rest a false) := rfl

theorem c8scan_logError (m : String) (rest : List Event) (a ex : Bool) :
    c8scan (.logError m :: rest) a ex = (!ex && c8scan rest a false) := rfl

theorem c8scan_tFail (c : String) (e : IOErr) (a : Bool) :
    c8scan (tFail c e) a false = true := by
  unfold tFail; split <;> rfl

theorem c3scan_nil (t : Nat) : c3scan [] t = true := rfl

theorem c5scan_nil (s : Nat) : c5scan [] s = true := rfl

theorem c6scan_nil (t : Nat) : c6scan t [] = true := rfl

theorem c8scan_nil (a ex : Bool) : c8scan [] a ex = true := rfl

/-- After the conditional growth step, the writable capacity is at least the
threshold `t`, provided the reserve increment is at least `t`. -/
theorem grow_ge (b : BufM) (t inc : Nat) (h : t ≤ inc) :
    t ≤ (if b.remaining_mut < t then b.reserve inc else b).remaining_mut := by
  by_cases hb : b.remaining_mut < t
  · rw [if_pos hb]
    unfold BufM.reserve
    rw [if_pos (lt_of_lt_of_le hb h)]
    simp only [BufM.remaining_mut]
    omega
  · rw [if_neg hb]
    exact Nat.le_of_not_lt hb

/-! ## Claim theorems -/

/-- C3: in the pipelined decode loop, every successful decode is immediately
and synchronously followed — still in the main loop, before the handler task
runs — by acquiring the sequencer's next ticket and then by the spawn
carrying exactly that ticket; one ticket per decoded request, tickets
consecutive from the sequencer counter (hence issued strictly in decode
order, not completion order), and no ticket or spawn event occurs anywhere
else. -/
theorem ticket_decode_order {Req : Type}
    (decode : List Nat → Except IOErr (Option (Req × List Nat)))
    (fuel : Nat) (st : PipeSt) :
    c3scan (pipeLoop decode fuel st) st.ticket = true := by
  induction fuel generalizing st with
  | zero => rfl
  | succ fuel ih =>
    simp only [pipeLoop]
    cases hd : decode st.buf.data with
    | error e =>
      rw [c3scan_decodeAttempt]
      exact c3scan_tFail _ _ _
    | ok o =>
      cases o with
      | none =>
        rw [c3scan_decodeAttempt]
        cases hr : st.reads with
        | nil => exact c3scan_nil _
        | cons r rs =>
          simp only [c3scan_readAttempt]
          cases r with
          | error e => exact c3scan_tFail _ _ _
          | ok chunk =>
            simp only [c3scan_gotBytes]
            split <;> split <;> first | rfl | exact ih _
      | some pr =>
        obtain ⟨req, rest⟩ := pr
        rw [c3scan_decodeAttempt, c3scan_triple]
        simp only [beq_self_eq_true, Bool.true_and]
        exact ih _

theorem c5scan_seqLoop {Req : Type}
    (decode : List Nat → Except IOErr (Option (Req × List Nat)))
    (service : Req → Except IOErr Response) (encode : Response → List Nat)
    (fuel : Nat) (st : ConnSt) (s : Nat) :
    c5scan (seqLoop decode service encode fuel st) s = true := by
  induction fuel generalizing st s with
  | zero => rfl
  | succ fuel ih =>
    simp only [seqLoop]
    cases hd : decode st.buf.data with
    | error e =>
      rw [c5scan_decodeAttempt]
      exact c5scan_tFail _ _ _
    | ok o =>
      cases o with
      | none =>
        rw [c5scan_decodeAttempt]
        cases hr : st.reads with
        | nil => exact c5scan_nil _
        | cons r rs =>
          simp only [c5scan_readAttempt]
          cases r with
          | error e => exact c5scan_tFail _ _ _
          | ok chunk =>
            simp only [c5scan_gotBytes]
            split <;> split
            any_goals exact ih _ _
            all_goals rename_i hn
            all_goals rw [hn]
            all_goals rfl
      | some pr =>
        obtain ⟨req, rest⟩ := pr
        rw [c5scan_decodeAttempt, c5scan_decodedReq]
        cases hsv : service req with
        | ok r =>
          simp only [callService, hsv, List.nil_append]
          cases st.writes with
          | nil => exact c5scan_nil _
          | cons w ws =>
            cases w with
            | some e => exact c5scan_tFail _ _ _
            | none => rw [c5scan_wrote]; exact ih _ _
        | error e =>
          simp only [callService, hsv, internal_error_rsp, List.cons_append,
            List.nil_append, c5scan_logError]
          cases st.writes with
          | nil => exact c5scan_nil _
          | cons w ws =>
            cases w with
            | some e2 => exact c5scan_tFail _ _ _
            | none => rw [c5scan_wrote]; exact ih _ _

theorem c5scan_pipeLoop {Req : Type}
    (decode : List Nat → Except IOErr (Option (Req × List Nat)))
    (fuel : Nat) (st : PipeSt) (s : Nat) :
    c5scan (pipeLoop decode fuel st) s = true := by
  induction fuel generalizing st s with
  | zero => rfl
  | succ fuel ih =>
    simp only [pipeLoop]
    cases hd : decode st.buf.data with
    | error e =>
      rw [c5scan_decodeAttempt]
      exact c5scan_tFail _ _ _
    | ok o =>
      cases o with
      | none =>
        rw [c5scan_decodeAttempt]
        cases hr : st.reads with
        | nil => exact c5scan_nil _
        | cons r rs =>
          simp only [c5scan_readAttempt]
          cases r with
          | error e => exact c5scan_tFail _ _ _
          | ok chunk =>
            simp only [c5scan_gotBytes]
            split <;> split
            any_goals exact ih _ _
            all_goals rename_i hn
            all_goals rw [hn]
            all_goals rfl
      | some pr =>
        obtain ⟨req, rest⟩ := pr
        rw [c5scan_decodeAttempt, c5scan_decodedReq, c5scan_ticketAcquired,
          c5scan_spawned]
        exact ih _ _

/-- C5: in both connection loops, a zero-byte read closes the connection at
once: an `eofClose` can only occur immediately after the pattern
decode-attempt, read-attempt, zero-byte result, and it is the last event of
the trace — so the closing path emits no error-level log entry and no
(further) response bytes. -/
theorem graceful_eof {Req : Type}
    (decode : List Nat → Except IOErr (Option (Req × List Nat)))
    (service : Req → Except IOErr Response) (encode : Response → List Nat)
    (fuel : Nat) (st : ConnSt) (pst : PipeSt) :
    c5scan (seqLoop decode service encode fuel st) 0 = true ∧
    c5scan (pipeLoop decode fuel pst) 0 = true :=
  ⟨c5scan_seqLoop decode service encode fuel st 0,
   c5scan_pipeLoop decode fuel pst 0⟩

theorem c6scan_seqLoop {Req : Type}
    (decode : List Nat → Except IOErr (Option (Req × List Nat)))
    (service : Req → Except IOErr Response) (encode : Response → List Nat)
    (fuel : Nat) (st : ConnSt) :
    c6scan 256 (seqLoop decode service encode fuel st) = true := by
  induction fuel generalizing st with
  | zero => rfl
  | succ fuel ih =>
    simp only [seqLoop]
    cases hd : decode st.buf.data with
    | error e =>
      rw [c6scan_decodeAttempt]
      exact c6scan_tFail _ _ _
    | ok o =>
      cases o with
      | none =>
        rw [c6scan_decodeAttempt]
        cases hr : st.reads with
        | nil => exact c6scan_nil _
        | cons r rs =>
          simp only [c6scan_readAttempt, Bool.and_eq_true, decide_eq_true_eq]
          refine ⟨grow_ge st.buf 256 512 (by norm_num), ?_⟩
          cases r with
          | error e => exact c6scan_tFail _ _ _
          | ok chunk =>
            simp only [c6scan_gotBytes]
            split <;> split
            any_goals exact ih _
            all_goals rfl
      | some pr =>
        obtain ⟨req, rest⟩ := pr
        rw [c6scan_decodeAttempt, c6scan_decodedReq]
        cases hsv : service req with
        | ok r =>
          simp only [callService, hsv, List.nil_append]
          cases st.writes with
          | nil => exact c6scan_nil _
          | cons w ws =>
            cases w with
            | some e => exact c6scan_tFail _ _ _
            | none => rw [c6scan_wrote]; exact ih _
        | error e =>
          simp only [callService, hsv, internal_error_rsp, List.cons_append,
            List.nil_append, c6scan_logError]
          cases st.writes with
          | nil => exact c6scan_nil _
          | cons w ws =>
            cases w with
            | some e2 => exact c6scan_tFail _ _ _
            | none => rw [c6scan_wrote]; exact ih _

theorem c6scan_pipeLoop {Req : Type}
    (decode : List Nat → Except IOErr (Option (Req × List Nat)))
    (fuel : Nat) (st : PipeSt) :
    c6scan 1024 (pipeLoop decode fuel st) = true := by
  induction fuel generalizing st with
  | zero => rfl
  | succ fuel ih =>
    simp only [pipeLoop]
    cases hd : decode st.buf.data with
    | error e =>
      rw [c6scan_decodeAttempt]
      exact c6scan_tFail _ _ _
    | ok o =>
      cases o with
      | none =>
        rw [c6scan_decodeAttempt]
        cases hr : st.reads with
        | nil => exact c6scan_nil _
        | cons r rs =>
          simp only [c6scan_readAttempt, Bool.and_eq_true, decide_eq_true_eq]
          refine ⟨grow_ge st.buf 1024 4096 (by norm_num), ?_⟩
          cases r with
          | error e => exact c6scan_tFail _ _ _
          | ok chunk =>
            simp only [c6scan_gotBytes]
            split <;> split
            any_goals exact ih _
            all_goals rfl
      | some pr =>
        obtain ⟨req, rest⟩ := pr
        rw [c6scan_decodeAttempt, c6scan_decodedReq, c6scan_ticketAcquired,
          c6scan_spawned]
        exact ih _

/-- C6: in the sequential loop a read is attempted only after ensuring
writable capacity of at least 256 (growing by reserving 512 when under the
threshold); in the pipelined loop the threshold is 1024 and the increment
4096 — so every read in either loop is attempted with writable capacity at
least the per-loop threshold. -/
theorem read_capacity_threshold {Req : Type}
    (decode : List Nat → Except IOErr (Option (Req × List Nat)))
    (service : Req → Except IOErr Response) (encode : Response → List Nat)
    (fuel : Nat) (st : ConnSt) (pst : PipeSt) :
    c6scan 256 (seqLoop decode service encode fuel st) = true ∧
    c6scan 1024 (pipeLoop decode fuel pst) = true :=
  ⟨c6scan_seqLoop decode service encode fuel st,
   c6scan_pipeLoop decode fuel pst⟩

theorem c8scan_seqLoop {Req : Type}
    (decode : List Nat → Except IOErr (Option (Req × List Nat)))
    (service : Req → Except IOErr Response) (encode : Response → List Nat)
    (fuel : Nat) (st : ConnSt) (a ex : Bool) :
    c8scan (seqLoop decode service encode fuel st) a ex = true := by
  induction fuel generalizing st a ex with
  | zero => rfl
  | succ fuel ih =>
    simp only [seqLoop]
    cases hd : decode st.buf.data with
    | error e =>
      rw [c8scan_decodeAttempt]
      exact c8scan_tFail _ _ _
    | ok o =>
      cases o with
      | none =>
        rw [c8scan_decodeAttempt]
        cases hr : st.reads with
        | nil => exact c8scan_nil _ _
        | cons r rs =>
          simp only [c8scan_readAttempt, Bool.not_false, Bool.true_and]
          cases r with
          | error e => exact c8scan_tFail _ _ _
          | ok chunk =>
            simp only [c8scan_gotBytes]
            split <;> split
            any_goals exact ih _ _ _
            all_goals rename_i hn
            all_goals rw [hn]
            all_goals rfl
      | some pr =>
        obtain ⟨req, rest⟩ := pr
        simp only [c8scan_decodeAttempt, c8scan_decodedReq, Bool.not_false,
          Bool.true_and]
        cases hsv : service req with
        | ok r =>
          simp only [callService, hsv, List.nil_append]
          cases st.writes with
          | nil => exact c8scan_nil _ _
          | cons w ws =>
            cases w with
            | some e => exact c8scan_tFail _ _ _
            | none =>
              simp only [c8scan_wrote, Bool.not_false, Bool.true_and]
              exact ih _ _ _
        | error e =>
          simp only [callService, hsv, internal_error_rsp, List.cons_append,
            List.nil_append, c8scan_logError, Bool.not_false, Bool.true_and]
          cases st.writes with
          | nil => exact c8scan_nil _ _
          | cons w ws =>
            cases w with
            | some e2 => exact c8scan_tFail _ _ _
            | none =>
              simp only [c8scan_wrote, Bool.not_false, Bool.true_and]
              exact ih _ _ _

theorem c8scan_pipeLoop {Req : Type}
    (decode : List Nat → Except IOErr (Option (Req × List Nat)))
    (fuel : Nat) (st : PipeSt) (a ex : Bool) :
    c8scan (pipeLoop decode fuel st) a ex = true := by
  induction fuel generalizing st a ex with
  | zero => rfl
  | succ fuel ih =>
    simp only [pipeLoop]
    cases hd : decode st.buf.data with
    | error e =>
      rw [c8scan_decodeAttempt]
      exact c8scan_tFail _ _ _
    | ok o =>
      cases o with
      | none =>
        rw [c8scan_decodeAttempt]
        cases hr : st.reads with
        | nil => exact c8scan_nil _ _
        | cons r rs =>
          simp only [c8scan_readAttempt, Bool.not_false, Bool.true_and]
          cases r with
          | error e => exact c8scan_tFail _ _ _
          | ok chunk =>
            simp only [c8scan_gotBytes]
            split <;> split
            any_goals exact ih _ _ _
            all_goals rename_i hn
            all_goals rw [hn]
            all_goals rfl
      | some pr =>
        obtain ⟨req, rest⟩ := pr
        simp only [c8scan_decodeAttempt, c8scan_decodedReq, c8scan_ticketAcquired,
          c8scan_spawned, Bool.not_false, Bool.true_and]
        exact ih _ _ _

/-- C8: in both loops a decode attempt comes before any read — the very
first event is a decode attempt on the empty initial buffer — a read is only
attempted when a decode attempt has happened since the previous read (never
two reads without an intervening decode attempt), and whenever anything
follows a successful nonzero read, the next event is a decode attempt. -/
theorem decode_read_alternation {Req : Type}
    (decode : List Nat → Except IOErr (Option (Req × List Nat)))
    (service : Req → Except IOErr Response) (encode : Response → List Nat)
    (fuel : Nat) (st : ConnSt) (pst : PipeSt)
    (reads : List (Except IOErr (List Nat))) (writes : List (Option IOErr)) :
    c8scan (seqLoop decode service encode fuel st) false false = true ∧
    c8scan (pipeLoop decode fuel pst) false false = true ∧
    (seqLoop decode service encode (fuel + 1) (initConnSt reads writes)).head? =
      some (.decodeAttempt 0) ∧
    (pipeLoop decode (fuel + 1) (initPipeSt reads)).head? =
      some (.decodeAttempt 0) :=
  ⟨c8scan_seqLoop decode service encode fuel st false false,
   c8scan_pipeLoop decode fuel pst false false, rfl, rfl⟩

/-- C7: both `start` functions bind synchronously before spawning anything:
a bind failure is returned at once with no coroutine spawned (and hence no
connection accepted, since accepting happens only inside the spawned
coroutine), and a bind success returns the join handle of the accept-loop
coroutine. -/
theorem start_bind_then_spawn (e : IOErr) (conns : List (Except IOErr Nat))
    (pconns : List (Except IOErr PConn)) :
    serverStart (.error e) = (.error e, false) ∧
    pipeServerStart (.error e) = (.error e, false) ∧
    serverStart (.ok conns) = (.ok ⟨seqAccept conns⟩, true) ∧
    pipeServerStart (.ok pconns) = (.ok ⟨pipeAccept pconns⟩, true) :=
  ⟨rfl, rfl, rfl, rfl⟩

/-- C10: in the pipelined accept loop, a connection whose `try_clone` fails
contributes exactly one error-level log entry to the accept trace — no
sequencer is created and no connection loop is spawned for it — and the loop
goes on to process the remaining connections. -/
theorem clone_failure_skips_connection (l1 l2 : List (Except IOErr PConn))
    (c : PConn) (e : IOErr) (h : c.cloneRes = .error e) :
    pipeAccept (l1 ++ .ok c :: l2) =
      pipeAccept l1 ++ [.logError (tMsg "stream.try_clone()" e)] ++ pipeAccept l2 := by
  simp [pipeAccept, h]

/-- Witness for C10: a concrete accept script with a failing clone in the
middle; the failing connection is logged and skipped, the neighbours are
served. -/
theorem clone_failure_skips_connection_witness :
    pipeAccept [.ok ⟨0, .ok ()⟩, .ok ⟨1, .error diskErr⟩, .ok ⟨2, .ok ()⟩] =
      pipeAccept [.ok ⟨0, .ok ()⟩] ++ [.logError (tMsg "stream.try_clone()" diskErr)] ++
        pipeAccept [.ok ⟨2, .ok ()⟩] :=
  clone_failure_skips_connection [.ok ⟨0, .ok ()⟩] [.ok ⟨2, .ok ()⟩]
    ⟨1, .error diskErr⟩ diskErr rfl

/-- C2: in both modes a handler failure never closes the connection.  In the
sequential loop the iteration logs the service error, writes the encoding of
the 500 "Internal Server Error" response whose body is the error's
description, and recurses to serve the next request; the pipelined handler
task produces the same 500 bytes for its turn, and the pipelined main loop
recurses after the spawn no matter what the handler later does. -/
theorem handler_failure_containment {Req : Type}
    (decode : List Nat → Except IOErr (Option (Req × List Nat)))
    (service : Req → Except IOErr Response) (encode : Response → List Nat)
    (fuel : Nat) (buf : BufM) (reads : List (Except IOErr (List Nat)))
    (ws : List (Option IOErr)) (k : Nat) (req : Req) (rest : List Nat) (e : IOErr)
    (hd : decode buf.data = .ok (some (req, rest)))
    (hs : service req = .error e) :
    seqLoop decode service encode (fuel + 1) ⟨buf, reads, none :: ws⟩ =
      [.decodeAttempt buf.data.length, .decodedReq,
       .logError ("error in service: err = " ++ e.descr),
       .wrote (encode (internalErrorResponse e))] ++
        seqLoop decode service encode fuel ⟨⟨rest, buf.cap⟩, reads, ws⟩ ∧
    (internalErrorResponse e).statusCode = 500 ∧
    (internalErrorResponse e).statusMsg = "Internal Server Error" ∧
    (internalErrorResponse e).bodyStr = e.descr ∧
    pipeTask service encode req none =
      [.logError ("error in service: err = " ++ e.descr),
       .wrote (encode (internalErrorResponse e))] ∧
    pipeLoop decode (fuel + 1) ⟨buf, reads, k⟩ =
      [.decodeAttempt buf.data.length, .decodedReq, .ticketAcquired k, .spawned k] ++
        pipeLoop decode fuel ⟨⟨rest, buf.cap⟩, reads, k + 1⟩ := by
  refine ⟨?_, rfl, rfl, rfl, ?_, ?_⟩
  · simp [seqLoop, hd, hs, callService, internal_error_rsp]
  · simp [pipeTask, hs, callService, internal_error_rsp]
  · simp [pipeLoop, hd]

/-- Witness for C2: concrete one-byte decoder, always-failing handler,
status-code encoder; the iteration writes the 500 encoding and the loops
continue. -/
theorem handler_failure_containment_witness :
    seqLoop decodeW serviceErrW encodeW 2 ⟨⟨[7], 512⟩, [], [none]⟩ =
      [.decodeAttempt 1, .decodedReq,
       .logError ("error in service: err = " ++ handlerErr.descr),
       .wrote (encodeW (internalErrorResponse handlerErr))] ++
        seqLoop decodeW serviceErrW encodeW 1 ⟨⟨[], 512⟩, [], []⟩ ∧
    (internalErrorResponse handlerErr).statusCode = 500 ∧
    (internalErrorResponse handlerErr).statusMsg = "Internal Server Error" ∧
    (internalErrorResponse handlerErr).bodyStr = handlerErr.descr ∧
    pipeTask serviceErrW encodeW 7 none =
      [.logError ("error in service: err = " ++ handlerErr.descr),
       .wrote (encodeW (internalErrorResponse handlerErr))] ∧
    pipeLoop decodeW 2 ⟨⟨[7], 512⟩, [], 0⟩ =
      [.decodeAttempt 1, .decodedReq, .ticketAcquired 0, .spawned 0] ++
        pipeLoop decodeW 1 ⟨⟨[], 512⟩, [], 1⟩ :=
  handler_failure_containment decodeW serviceErrW encodeW 1 ⟨[7], 512⟩ [] [] 0 7 []
    handlerErr rfl rfl

/-- Counterexample for C4 as stated: a write that fails with a
`ConnectionReset` I/O error is NOT logged at error level — the sequential
iteration's trace ends with no log entry, and the pipelined handler task's
trace is empty. -/
theorem write_error_silent_cex :
    seqLoop decodeW serviceOkW encodeW 5 ⟨⟨[7], 512⟩, [], [some resetErr]⟩ =
      [.decodeAttempt 1, .decodedReq] ∧
    pipeTask serviceOkW encodeW 7 (some resetErr) = [] ∧
    benignKind resetErr.kind = true :=
  ⟨rfl, rfl, rfl⟩

/-- C4 (amended): for every I/O error returned while writing a response, in
either server mode, the task is abandoned at once — the trace ends with no
retry and no further write — and the error is logged at error level unless
its kind is `ConnectionReset` or `UnexpectedEof`, in which case the task
abandons silently. -/
theorem write_error_abandon {Req : Type}
    (decode : List Nat → Except IOErr (Option (Req × List Nat)))
    (service : Req → Except IOErr Response) (encode : Response → List Nat)
    (fuel : Nat) (buf : BufM) (reads : List (Except IOErr (List Nat)))
    (ws : List (Option IOErr)) (req : Req) (rest : List Nat) (rsp : Response)
    (e : IOErr)
    (hd : decode buf.data = .ok (some (req, rest)))
    (hs : service req = .ok rsp) :
    (benignKind e.kind = true →
      seqLoop decode service encode (fuel + 1) ⟨buf, reads, some e :: ws⟩ =
        [.decodeAttempt buf.data.length, .decodedReq] ∧
      pipeTask service encode req (some e) = []) ∧
    (benignKind e.kind = false →
      seqLoop decode service encode (fuel + 1) ⟨buf, reads, some e :: ws⟩ =
        [.decodeAttempt buf.data.length, .decodedReq,
         .logError (tMsg "stream.write_all(rsp.as_ref())" e)] ∧
      pipeTask service encode req (some e) =
        [.logError (tMsg "writer.write_all(rsp.as_ref())" e)]) := by
  constructor <;> intro hb <;>
    exact ⟨by simp [seqLoop, hd, hs, callService, tFail, hb],
           by simp [pipeTask, hs, callService, tFail, hb]⟩

/-- Witness for C4 (amended): a non-benign disk error while writing is
logged and the task abandons. -/
theorem write_error_abandon_witness :
    (benignKind diskErr.kind = true →
      seqLoop decodeW serviceOkW encodeW 4 ⟨⟨[7], 512⟩, [], [some diskErr]⟩ =
        [.decodeAttempt 1, .decodedReq] ∧
      pipeTask serviceOkW encodeW 7 (some diskErr) = []) ∧
    (benignKind diskErr.kind = false →
      seqLoop decodeW serviceOkW encodeW 4 ⟨⟨[7], 512⟩, [], [some diskErr]⟩ =
        [.decodeAttempt 1, .decodedReq,
         .logError (tMsg "stream.write_all(rsp.as_ref())" diskErr)] ∧
      pipeTask serviceOkW encodeW 7 (some diskErr) =
        [.logError (tMsg "writer.write_all(rsp.as_ref())" diskErr)]) :=
  write_error_abandon decodeW serviceOkW encodeW 3 ⟨[7], 512⟩ [] [] 7 []
    Response.new diskErr rfl rfl

/-- C9: a `ConnectionReset` or `UnexpectedEof` I/O error — whether from a
read in either loop or from a write in a pipelined handler task — makes the
task return silently, with no error-level log entry; an error of any other
kind is logged at error level before the task returns. -/
theorem benign_vs_logged_io_errors {Req : Type}
    (decode : List Nat → Except IOErr (Option (Req × List Nat)))
    (service : Req → Except IOErr Response) (encode : Response → List Nat)
    (fuel : Nat) (buf : BufM) (rs : List (Except IOErr (List Nat)))
    (ws : List (Option IOErr)) (k : Nat) (req : Req) (rsp : Response) (e : IOErr)
    (hd : decode buf.data = .ok none)
    (hs : service req = .ok rsp) :
    seqLoop decode service encode (fuel + 1) ⟨buf, .error e :: rs, ws⟩ =
      [.decodeAttempt buf.data.length,
       .readAttempt (if buf.remaining_mut < 256 then buf.reserve 512 else buf).remaining_mut] ++
        tFail "stream.read(read_buf)" e ∧
    pipeLoop decode (fuel + 1) ⟨buf, .error e :: rs, k⟩ =
      [.decodeAttempt buf.data.length,
       .readAttempt (if buf.remaining_mut < 1024 then buf.reserve 4096 else buf).remaining_mut] ++
        tFail "reader.read(read_buf)" e ∧
    pipeTask service encode req (some e) = tFail "writer.write_all(rsp.as_ref())" e ∧
    (benignKind e.kind = true → ∀ c, tFail c e = []) ∧
    (benignKind e.kind = false → ∀ c, tFail c e = [.logError (tMsg c e)]) := by
  refine ⟨?_, ?_, ?_, ?_, ?_⟩
  · simp [seqLoop, hd]
  · simp [pipeLoop, hd]
  · simp [pipeTask, hs, callService]
  · intro hb c; simp [tFail, hb]
  · intro hb c; simp [tFail, hb]

/-- Witness for C9: a connection-reset error from a read terminates both
loops silently, and from a pipelined write terminates the task silently. -/
theorem benign_vs_logged_io_errors_witness :
    seqLoop decodeW serviceOkW encodeW 3 ⟨⟨[], 512⟩, [.error resetErr], []⟩ =
      [.decodeAttempt 0, .readAttempt 512] ∧
    pipeLoop decodeW 3 ⟨⟨[], 512⟩, [.error resetErr], 0⟩ =
      [.decodeAttempt 0, .readAttempt 4096] ∧
    pipeTask serviceOkW encodeW 7 (some resetErr) = [] ∧
    (benignKind resetErr.kind = true → ∀ c, tFail c resetErr = []) ∧
    (benignKind resetErr.kind = false → ∀ c, tFail c resetErr = [.logError (tMsg c resetErr)]) :=
  benign_vs_logged_io_errors decodeW serviceOkW encodeW 2 ⟨[], 512⟩ [] [] 0 7
    Response.new resetErr rfl rfl

theorem take_succ_getD {α : Type} (l : List α) (p : Nat) (d : α) (h : p < l.length) :
    l.take (p + 1) = l.take p ++ [l.getD p d] := by
  induction l generalizing p with
  | nil => simp at h
  | cons x xs ih =>
    cases p with
    | zero => simp [List.getD]
    | succ p =>
      simp only [List.length_cons, Nat.add_lt_add_iff_right] at h
      simp [List.getD] at ih ⊢
      exact ih p h

theorem joinEnc_succ (enc : Nat → List Nat) (n : Nat) :
    joinEnc enc (n + 1) = joinEnc enc n ++ enc n := by
  simp [joinEnc, List.range_succ]

theorem seqWInv_init (enc : Nat → List Nat) : SeqWInv enc seqWInit :=
  ⟨fun _ => ⟨rfl, fun _ _ => rfl⟩, fun _ h => by cases h⟩

theorem seqWInv_step (enc : Nat → List Nat) (s : SeqWState) (stp : SeqWStep)
    (h : SeqWInv enc s) : SeqWInv enc (seqWStepFn enc s stp) := by
  obtain ⟨hn, hs⟩ := h
  cases stp with
  | acquire k =>
    simp only [seqWStepFn]
    split
    · rename_i hc
      obtain ⟨hc1, hc2⟩ := hc
      obtain ⟨hw, hp⟩ := hn hc1
      refine ⟨fun h0 => by simp at h0, fun k2 h2 => ?_⟩
      obtain rfl : k = k2 := by simpa using h2
      subst hc2
      refine ⟨rfl, ?_, ?_, fun j hj => hp j (Nat.le_of_lt hj)⟩
      · rw [hp s.nextW (Nat.le_refl _)]; exact Nat.zero_le _
      · rw [hp s.nextW (Nat.le_refl _)]; simp [hw]
    · exact ⟨hn, hs⟩
  | writeByte k =>
    simp only [seqWStepFn]
    split
    · rename_i hc
      obtain ⟨hc1, hc2⟩ := hc
      obtain ⟨hk, hle, hw, hp⟩ := hs k hc1
      refine ⟨fun h0 => by simp [hc1] at h0, fun k2 h2 => ?_⟩
      obtain rfl : k = k2 := by simp [hc1] at h2; exact h2
      refine ⟨hk, ?_, ?_, ?_⟩
      · simpa using Nat.succ_le_of_lt hc2
      · simp only [hw, List.append_assoc]
        rw [← take_succ_getD (enc k) (s.prog k) 0 hc2]
        simp
      · intro j hj
        have hj2 : s.nextW < j := by simpa using hj
        have hjk : j ≠ k := by omega
        simp [hjk, hp j hj2]
    · exact ⟨hn, hs⟩
  | release k =>
    simp only [seqWStepFn]
    split
    · rename_i hc
      obtain ⟨hc1, hc2⟩ := hc
      obtain ⟨hk, hle, hw, hp⟩ := hs k hc1
      refine ⟨fun _ => ⟨?_, fun j hj => hp j (by simp at hj; omega)⟩,
        fun k2 h2 => by simp at h2⟩
      rw [joinEnc_succ, hw, hc2, List.take_length, hk]
    · exact ⟨hn, hs⟩

theorem seqWInv_run (enc : Nat → List Nat) (steps : List SeqWStep) (s : SeqWState)
    (h : SeqWInv enc s) : SeqWInv enc (seqWRun enc steps s) := by
  induction steps generalizing s with
  | nil => exact h
  | cons stp steps ih => exact ih _ (seqWInv_step enc s stp h)

/-- C1: for any number of pipelined requests on one connection and any
adversarial interleaving of the handler tasks' acquire/write/release
attempts, once the sequencer has released `N` tickets with the write half
free, the bytes on the wire are exactly the concatenation of the encoded
responses in ticket (= request decode) order; moreover, at every reachable
state the wire is a clean concatenation of whole responses followed by a
prefix of the single in-progress response — no two responses' bytes are ever
partially interleaved. -/
theorem pipelined_write_order (enc : Nat → List Nat) (steps : List SeqWStep) (N : Nat)
    (h1 : (seqWRun enc steps seqWInit).nextW = N)
    (h2 : (seqWRun enc steps seqWInit).holder = none) :
    (seqWRun enc steps seqWInit).wire = joinEnc enc N ∧
    ∀ steps2 : List SeqWStep, ∃ n p,
      (seqWRun enc steps2 seqWInit).wire = joinEnc enc n ++ (enc n).take p := by
  constructor
  · have hInv := seqWInv_run enc steps seqWInit (seqWInv_init enc)
    exact h1 ▸ (hInv.1 h2).1
  · intro steps2
    have hInv2 := seqWInv_run enc steps2 seqWInit (seqWInv_init enc)
    cases hh : (seqWRun enc steps2 seqWInit).holder with
    | none =>
      exact ⟨(seqWRun enc steps2 seqWInit).nextW, 0, by simp [(hInv2.1 hh).1]⟩
    | some k =>
      obtain ⟨hk, hle, hw, hp⟩ := hInv2.2 k hh
      exact ⟨k, (seqWRun enc steps2 seqWInit).prog k, by rw [hw, hk]⟩

/-- Witness for C1: two tickets whose tasks' steps are adversarially
interleaved (ticket 1 repeatedly tries to jump the queue and blocks); the
final wire is the two encoded responses in ticket order. -/
theorem pipelined_write_order_witness :
    (seqWRun encW stepsW seqWInit).wire = joinEnc encW 2 ∧
    ∀ steps2 : List SeqWStep, ∃ n p,
      (seqWRun encW steps2 seqWInit).wire = joinEnc encW n ++ (encW n).take p :=
  pipelined_write_order encW stepsW 2 rfl rfl

end MayMinihttp
